import Mathlib

/-!
Shallow embedding of scripts/update_tickers.py (Indian-Stock-Symbols).

The script downloads one CSV (the scrip master), parses it with
csv.DictReader, filters it through the fixed CONFIG rule list, and writes
per-category ticker files plus a consolidated "all" list.  The network
fetch is external I/O and is not modelled; the pipeline is modelled as a
pure function from the fetched CSV text to the ordered list of file
writes (path, content) and the process exit code.

Modelling conventions:
* Python dict-of-row (csv.DictReader) is an association list from column
  name to Option String; the value none models Python None (the restval
  padding DictReader inserts when a data row is shorter than the header).
  Extra values of an over-long row go under the restkey None in Python;
  that entry is never read by this script and is dropped here.
* CSV quoting/escaping is not modelled: fields are split on commas and
  rows on newline characters, which coincides with csv.DictReader on
  inputs free of quote characters and embedded separators.  No claim
  below depends on the quoting policy (the spec itself leaves the
  malformed-row policy to the CSV implementation).
* Python str.strip / str.upper are modelled on ASCII (the predicates only
  ever compare ASCII data).
* Machine integers do not occur; all text is Unicode code points.
-/

namespace IndianTickers

/-- Characters stripped by Python str.strip() (ASCII whitespace). -/
def isPySpace (c : Char) : Bool :=
  c = ' ' || c = '\t' || c = '\n' || c = '\r' || c = '\x0b' || c = '\x0c'

/-- Drop the longest suffix whose characters satisfy p. -/
def dropLastWhile (p : Char → Bool) (l : List Char) : List Char :=
  (l.reverse.dropWhile p).reverse

/-- Python str.strip(): remove leading and trailing whitespace. -/
def pyStrip (s : String) : String :=
  ⟨dropLastWhile isPySpace (s.data.dropWhile isPySpace)⟩

/-- Python str.replace(c, ""): remove every occurrence of a character. -/
def removeChar (c : Char) (s : String) : String :=
  ⟨s.data.filter (fun d => d ≠ c)⟩

/-- The double quote character (code point 34). -/
def dquote : Char := Char.ofNat 34

/-- The single quote character (code point 39). -/
def squote : Char := Char.ofNat 39

/-- Python str() applied to a cell value: None prints as "None". -/
def pyStr (v : Option String) : String :=
  match v with
  | none => "None"
  | some s => s

/-- clean_ticker from the script: str(ticker).strip().replace(quote, "")
twice, first double then single quotes. -/
def clean_ticker (v : Option String) : String :=
  removeChar squote (removeChar dquote (pyStrip (pyStr v)))

/-- Python str.upper() restricted to ASCII letters. -/
def pyUpperChar (c : Char) : Char :=
  if 97 ≤ c.toNat && c.toNat ≤ 122 then Char.ofNat (c.toNat - 32) else c

/-- Uppercase a whole string (ASCII model of str.upper()). -/
def pyUpper (s : String) : String :=
  ⟨s.data.map pyUpperChar⟩

/-- Does the list start with the given pattern? -/
def startsWithL : List Char → List Char → Bool
  | _, [] => true
  | [], _ :: _ => false
  | a :: as, b :: bs => a = b && startsWithL as bs

/-- Does the list contain the pattern as a contiguous run? -/
def containsSub : List Char → List Char → Bool
  | [], pat => pat.isEmpty
  | c :: as, pat => startsWithL (c :: as) pat || containsSub as pat

/-- Python "pat in s" substring test. -/
def strContains (s pat : String) : Bool :=
  containsSub s.data pat.data

/-- Python s.startswith(pat). -/
def pyStartsWith (s pat : String) : Bool :=
  startsWithL s.data pat.data

/-! ### CSV parsing (model of csv.DictReader over StringIO) -/

/-- Split a character list on a separator character; n separators give
n+1 (possibly empty) parts. -/
def splitOnChar (sep : Char) : List Char → List (List Char)
  | [] => [[]]
  | c :: cs =>
    match splitOnChar sep cs with
    | [] => if c = sep then [[], []] else [[c]]
    | h :: t => if c = sep then [] :: h :: t else (c :: h) :: t

/-- Physical lines of the text, Python splitlines-style on newline: the
empty text has no lines and a trailing newline does not open a new line. -/
def splitLines (t : String) : List String :=
  if t.data = [] then []
  else
    let parts := (splitOnChar '\n' t.data).map String.mk
    if t.data.getLast? = some '\n' then parts.dropLast else parts

/-- Fields of one CSV line: comma-separated; a blank line has no fields
(csv.reader yields an empty row for it). -/
def parseFields (l : String) : List String :=
  if l.data = [] then [] else (splitOnChar ',' l.data).map String.mk

/-- One parsed row: insertion-ordered mapping from column name to cell
value, none standing for the DictReader restval padding (Python None). -/
abbrev Record : Type := List (String × Option String)

/-- Python dict assignment d[k] = v: replace in place, else append. -/
def dictInsert (d : Record) (k : String) (v : Option String) : Record :=
  match d with
  | [] => [(k, v)]
  | (k2, v2) :: rest =>
    if k2 = k then (k2, v) :: rest else (k2, v2) :: dictInsert rest k v

/-- Python dict lookup d.get(k): none when the key is absent. -/
def dictFind (d : Record) (k : String) : Option (Option String) :=
  match d with
  | [] => none
  | (k2, v) :: rest => if k2 = k then some v else dictFind rest k

/-- DictReader row construction: dict(zip(fieldnames, row)), then pad the
missing trailing fieldnames with the restval None. -/
def mkRecord (fieldnames : List String) (vals : List String) : Record :=
  let pairs :=
    (fieldnames.zip vals).map (fun p => (p.1, some p.2)) ++
      (fieldnames.drop vals.length).map (fun k => (k, (none : Option String)))
  pairs.foldl (fun d p => dictInsert d p.1 p.2) []

/-- Iterate the remaining lines into records; DictReader skips rows that
parse to the empty row (blank lines). -/
def buildRows (fieldnames : List String) : List String → List Record
  | [] => []
  | l :: ls =>
    if l = "" then buildRows fieldnames ls
    else mkRecord fieldnames (parseFields l) :: buildRows fieldnames ls

/-- list(csv.DictReader(StringIO(text))): the first line is the header,
every later non-blank line is one record, in order.  Never fails. -/
def parseCSV (t : String) : List Record :=
  match splitLines t with
  | [] => []
  | header :: rest => buildRows (parseFields header) rest

/-! ### Category rules (the CONFIG list of the script) -/

/-- Python row[k]: the value, or a KeyError when the column is absent. -/
def getItem (r : Record) (k : String) : Except String (Option String) :=
  match dictFind r k with
  | none => .error ("KeyError: " ++ k)
  | some v => .ok v

/-- Filter of the nse_equity rule, with Python and-short-circuiting:
row[Exch] == N and row[ExchType] == C and row[AllowedToTrade] == Y and
row[Series] in [EQ, BE, BZ, SM, ST]. -/
def nseEquityFilter (r : Record) : Except String Bool :=
  match getItem r "Exch" with
  | .error e => .error e
  | .ok v1 =>
    if v1 ≠ some "N" then .ok false
    else
      match getItem r "ExchType" with
      | .error e => .error e
      | .ok v2 =>
        if v2 ≠ some "C" then .ok false
        else
          match getItem r "AllowedToTrade" with
          | .error e => .error e
          | .ok v3 =>
            if v3 ≠ some "Y" then .ok false
            else
              match getItem r "Series" with
              | .error e => .error e
              | .ok v4 =>
                .ok (v4 == some "EQ" || v4 == some "BE" || v4 == some "BZ" ||
                     v4 == some "SM" || v4 == some "ST")

/-- Filter of the nse_etf rule: row[Exch] == N and row[ExchType] == C and
ETF in str(row.get(Name, empty)).upper() and row[AllowedToTrade] == Y.
Name is read with a defaulting get and never raises. -/
def nseEtfFilter (r : Record) : Except String Bool :=
  match getItem r "Exch" with
  | .error e => .error e
  | .ok v1 =>
    if v1 ≠ some "N" then .ok false
    else
      match getItem r "ExchType" with
      | .error e => .error e
      | .ok v2 =>
        if v2 ≠ some "C" then .ok false
        else
          let nm := match dictFind r "Name" with
            | none => ""
            | some v => pyStr v
          if ¬ strContains (pyUpper nm) "ETF" then .ok false
          else
            match getItem r "AllowedToTrade" with
            | .error e => .error e
            | .ok v3 => .ok (v3 == some "Y")

/-- Filter of the bse_equity rule: row[Exch] == B and row[ExchType] == C
and row[AllowedToTrade] == Y and (row[Scripcode].startswith(5) or
row[Scripcode].startswith(2)).  A padded None Scripcode raises
(AttributeError in Python), modelled as an error as well. -/
def bseEquityFilter (r : Record) : Except String Bool :=
  match getItem r "Exch" with
  | .error e => .error e
  | .ok v1 =>
    if v1 ≠ some "B" then .ok false
    else
      match getItem r "ExchType" with
      | .error e => .error e
      | .ok v2 =>
        if v2 ≠ some "C" then .ok false
        else
          match getItem r "AllowedToTrade" with
          | .error e => .error e
          | .ok v3 =>
            if v3 ≠ some "Y" then .ok false
            else
              match getItem r "Scripcode" with
              | .error e => .error e
              | .ok none => .error "AttributeError: NoneType has no attribute startswith"
              | .ok (some s) => .ok (pyStartsWith s "5" || pyStartsWith s "2")

/-- One entry of the CONFIG list. -/
structure Config where
  key : String
  dir : String
  suffix : String
  filterFn : Record → Except String Bool
  ticker_col : String
  include_in_all : Bool

/-- CONFIG entry nse_equity. -/
def nseEquityCfg : Config :=
  ⟨"nse_equity", "nse/equity", ".NS", nseEquityFilter, "Name", true⟩

/-- CONFIG entry nse_etf. -/
def nseEtfCfg : Config :=
  ⟨"nse_etf", "nse/etf", ".NS", nseEtfFilter, "Name", false⟩

/-- CONFIG entry bse_equity. -/
def bseEquityCfg : Config :=
  ⟨"bse_equity", "bse/equity", ".BO", bseEquityFilter, "Scripcode", true⟩

/-- The fixed, ordered CONFIG list of the script. -/
def CONFIG : List Config :=
  [nseEquityCfg, nseEtfCfg, bseEquityCfg]

/-! ### JSON serialization (model of json.dump with indent=2) -/

/-- Lowercase hexadecimal digit. -/
def hexDigit (n : Nat) : Char :=
  if n < 10 then Char.ofNat (48 + n) else Char.ofNat (87 + n)

/-- Four lowercase hex digits, as in a JSON unicode escape. -/
def hex4 (n : Nat) : String :=
  ⟨[hexDigit (n / 4096 % 16), hexDigit (n / 256 % 16),
    hexDigit (n / 16 % 16), hexDigit (n % 16)]⟩

/-- JSON escape of one character; ascii selects the ensure_ascii=True
policy (everything outside printable ASCII escaped, surrogate pairs for
astral code points), as Python json does. -/
def jsonEscapeChar (ascii : Bool) (c : Char) : String :=
  if c = dquote then "\\\""
  else if c = '\\' then "\\\\"
  else if c = '\n' then "\\n"
  else if c = '\r' then "\\r"
  else if c = '\t' then "\\t"
  else if c = '\x08' then "\\b"
  else if c = '\x0c' then "\\f"
  else if c.toNat < 32 then "\\u" ++ hex4 c.toNat
  else if ascii && 126 < c.toNat then
    if c.toNat ≤ 65535 then "\\u" ++ hex4 c.toNat
    else
      "\\u" ++ hex4 (55296 + (c.toNat - 65536) / 1024) ++
        "\\u" ++ hex4 (56320 + (c.toNat - 65536) % 1024)
  else ⟨[c]⟩

/-- Concatenate a list of strings. -/
def strConcat : List String → String
  | [] => ""
  | s :: rest => s ++ strConcat rest

/-- JSON string literal. -/
def jsonStr (ascii : Bool) (s : String) : String :=
  "\"" ++ strConcat (s.data.map (jsonEscapeChar ascii)) ++ "\""

/-- Join with a separator (Python str.join). -/
def joinSep (sep : String) : List String → String
  | [] => ""
  | [x] => x
  | x :: y :: rest => x ++ sep ++ joinSep sep (y :: rest)

/-- JSON value of a cell: a string, or null for the None padding. -/
def jsonValue (v : Option String) : String :=
  match v with
  | none => "null"
  | some s => jsonStr false s

/-- One row as an indented JSON object; json.dump(..., ensure_ascii=False,
indent=2) renders dict items at four spaces inside the top-level list. -/
def jsonRecord (r : Record) : String :=
  match r with
  | [] => "\x7b\x7d"
  | _ =>
    "\x7b\n    " ++
      joinSep ",\n    "
        (r.map (fun kv => jsonStr false kv.1 ++ ": " ++ jsonValue kv.2)) ++
      "\n  \x7d"

/-- json.dump(rows, ensure_ascii=False, indent=2) for the list of matched
rows (full_tickers.json). -/
def jsonRecords (rs : List Record) : String :=
  match rs with
  | [] => "[]"
  | _ => "[\n  " ++ joinSep ",\n  " (rs.map jsonRecord) ++ "\n]"

/-- json.dump(tickers, indent=2) for a ticker list (tickers.json);
ensure_ascii defaults to True there. -/
def jsonStrings (l : List String) : String :=
  match l with
  | [] => "[]"
  | _ => "[\n  " ++ joinSep ",\n  " (l.map (jsonStr true)) ++ "\n]"

/-! ### Sorting (model of sorted(list(set(...)))) -/

/-- Python string comparison: lexicographic on code points. -/
def lexLe : List Char → List Char → Bool
  | [], _ => true
  | _ :: _, [] => false
  | a :: as, b :: bs =>
    if a.toNat = b.toNat then lexLe as bs else decide (a.toNat < b.toNat)

/-- Non-strict Python ordering on strings, as a Bool. -/
def strLe (a b : String) : Bool :=
  lexLe a.data b.data

/-- The same ordering as a proposition (the sort relation). -/
def strLeP (a b : String) : Prop :=
  strLe a b = true

instance : DecidableRel strLeP := by
  unfold strLeP
  infer_instance

/-- sorted(list(set(l))) of the script: deduplicate, then sort ascending
by the string ordering. -/
def pySortedUnique (l : List String) : List String :=
  List.insertionSort strLeP l.dedup

/-! ### The pipeline (process_data and main of the script) -/

/-- One file write: target path (relative to the output root) and the
full text written; every write fully overwrites the target. -/
abbrev FileWrite : Type := String × String

/-- The filtering list comprehension: evaluate the rule's filter on every
row in order; the first raised error aborts. -/
def filterRows (f : Record → Except String Bool) : List Record → Except String (List Record)
  | [] => .ok []
  | r :: rs =>
    match f r with
    | .error e => .error e
    | .ok b =>
      match filterRows f rs with
      | .error e => .error e
      | .ok l => .ok (if b then r :: l else l)

/-- The ticker extraction loop: row[ticker_col] (KeyError possible),
clean_ticker, keep non-empty cleaned values with the suffix appended. -/
def extractTickers (cfg : Config) : List Record → Except String (List String)
  | [] => .ok []
  | r :: rs =>
    match getItem r cfg.ticker_col with
    | .error e => .error e
    | .ok v =>
      match extractTickers cfg rs with
      | .error e => .error e
      | .ok rest =>
        .ok (if clean_ticker v = "" then rest
             else (clean_ticker v ++ cfg.suffix) :: rest)

/-- Content of a tickers.txt file: newline-joined list plus a trailing
newline. -/
def tickersTxtContent (l : List String) : String :=
  joinSep "\n" l ++ "\n"

/-- The full_tickers.json write of a category. -/
def fullWrite (cfg : Config) (fl : List Record) : FileWrite :=
  ("data/" ++ cfg.dir ++ "/full_tickers.json", jsonRecords fl)

/-- The tickers.txt write of a category. -/
def txtWrite (cfg : Config) (l : List String) : FileWrite :=
  ("data/" ++ cfg.dir ++ "/tickers.txt", tickersTxtContent l)

/-- The tickers.json write of a category. -/
def jsonWrite (cfg : Config) (l : List String) : FileWrite :=
  ("data/" ++ cfg.dir ++ "/tickers.json", jsonStrings l)

/-- One iteration of the CONFIG loop in process_data: filter (errors
abort before any write), write full_tickers.json, extract tickers (an
error here leaves only the full json written), sort-unique, write
tickers.txt and tickers.json; returns the writes performed and either the
sorted ticker list or the raised error. -/
def processCategory (rows : List Record) (cfg : Config) :
    List FileWrite × Except String (List String) :=
  match filterRows cfg.filterFn rows with
  | .error e => ([], .error e)
  | .ok filtered =>
    match extractTickers cfg filtered with
    | .error e => ([fullWrite cfg filtered], .error e)
    | .ok ticks =>
      ([fullWrite cfg filtered, txtWrite cfg (pySortedUnique ticks),
        jsonWrite cfg (pySortedUnique ticks)], .ok (pySortedUnique ticks))

/-- The CONFIG loop: writes accumulate in order; the first error aborts
the remaining categories; on success the include_in_all ticker lists are
concatenated in CONFIG order (all_india_tickers). -/
def processDataAux (rows : List Record) : List Config → List FileWrite × Except String (List String)
  | [] => ([], .ok [])
  | cfg :: rest =>
    match (processCategory rows cfg).2 with
    | .error e => ((processCategory rows cfg).1, .error e)
    | .ok st =>
      match (processDataAux rows rest).2 with
      | .error e =>
        ((processCategory rows cfg).1 ++ (processDataAux rows rest).1, .error e)
      | .ok l =>
        ((processCategory rows cfg).1 ++ (processDataAux rows rest).1,
         .ok ((if cfg.include_in_all then st else []) ++ l))

/-- process_data of the script, over the fixed CONFIG list. -/
def processData (rows : List Record) : List FileWrite × Except String (List String) :=
  processDataAux rows CONFIG

/-- main of the script, minus the network fetch: given the fetched CSV
text, the guard exit(1) on empty text runs before anything else; then
process_data; then the consolidated all list is sorted-unique and written;
any raised error is caught and the process exits 1.  Result: the file
writes performed, and the process exit code. -/
def runMain (t : String) : List FileWrite × Nat :=
  if t = "" then ([], 1)
  else
    match (processData (parseCSV t)).2 with
    | .error _ => ((processData (parseCSV t)).1, 1)
    | .ok allT =>
      ((processData (parseCSV t)).1 ++
        [("data/all/tickers.txt", tickersTxtContent (pySortedUnique allT)),
         ("data/all/tickers.json", jsonStrings (pySortedUnique allT))], 0)

/-! ### Filesystem model (overwriting writes) -/

/-- A filesystem: path to file content, none when the file is absent. -/
def FileSys : Type := String → Option String

/-- Apply one overwriting write. -/
def applyWrite (fs : FileSys) (w : FileWrite) : FileSys :=
  fun p => if p = w.1 then some w.2 else fs p

/-- Apply a list of writes in order. -/
def applyWrites (fs : FileSys) : List FileWrite → FileSys
  | [] => fs
  | w :: ws => applyWrites (applyWrite fs w) ws

/-- The content the write list leaves at a path (last write wins), none
when the list never writes the path. -/
def writeLookup : List FileWrite → String → Option String
  | [], _ => none
  | w :: ws, p =>
    match writeLookup ws p with
    | some c => some c
    | none => if p = w.1 then some w.2 else none

/-- Is an Except value an error? -/
def exceptErr {α : Type} : Except String α → Bool
  | .error _ => true
  | .ok _ => false

instance {ε α : Type} [DecidableEq ε] [DecidableEq α] : DecidableEq (Except ε α) := fun a b =>
  match a, b with
  | .error e1, .error e2 =>
    if h : e1 = e2 then .isTrue (congrArg Except.error h)
    else .isFalse (fun hh => h (Except.error.inj hh))
  | .ok a1, .ok a2 =>
    if h : a1 = a2 then .isTrue (congrArg Except.ok h)
    else .isFalse (fun hh => h (Except.ok.inj hh))
  | .error _, .ok _ => .isFalse (fun hh => Except.noConfusion hh)
  | .ok _, .error _ => .isFalse (fun hh => Except.noConfusion hh)

/-! ### Lemmas about the ordering and the sort -/

theorem lexLe_trans : ∀ a b c, lexLe a b = true → lexLe b c = true → lexLe a c = true := by
  intro a
  induction a with
  | nil => intro b c _ _; rfl
  | cons x xs ih =>
    intro b c h1 h2
    cases b with
    | nil => simp [lexLe] at h1
    | cons y ys =>
      cases c with
      | nil => simp [lexLe] at h2
      | cons z zs =>
        simp only [lexLe] at h1 h2 ⊢
        by_cases hxy : x.toNat = y.toNat
        · rw [if_pos hxy] at h1
          by_cases hyz : y.toNat = z.toNat
          · rw [if_pos hyz] at h2
            rw [if_pos (hxy.trans hyz)]
            exact ih ys zs h1 h2
          · rw [if_neg hyz, decide_eq_true_eq] at h2
            have hlt : x.toNat < z.toNat := by omega
            rw [if_neg (by omega), decide_eq_true_eq]
            exact hlt
        · rw [if_neg hxy, decide_eq_true_eq] at h1
          by_cases hyz : y.toNat = z.toNat
          · have hlt : x.toNat < z.toNat := by omega
            rw [if_neg (by omega), decide_eq_true_eq]
            exact hlt
          · rw [if_neg hyz, decide_eq_true_eq] at h2
            have hlt : x.toNat < z.toNat := by omega
            rw [if_neg (by omega), decide_eq_true_eq]
            exact hlt

theorem lexLe_total : ∀ a b, lexLe a b = true ∨ lexLe b a = true := by
  intro a
  induction a with
  | nil => intro b; left; rfl
  | cons x xs ih =>
    intro b
    cases b with
    | nil => right; rfl
    | cons y ys =>
      simp only [lexLe]
      by_cases hxy : x.toNat = y.toNat
      · rw [if_pos hxy, if_pos hxy.symm]
        exact ih ys
      · rw [if_neg hxy, if_neg (fun h => hxy h.symm), decide_eq_true_eq, decide_eq_true_eq]
        omega

instance : IsTrans String strLeP :=
  ⟨fun a b c h1 h2 => lexLe_trans a.data b.data c.data h1 h2⟩

instance : IsTotal String strLeP :=
  ⟨fun a b => lexLe_total a.data b.data⟩

theorem pySortedUnique_sorted (l : List String) :
    List.Sorted strLeP (pySortedUnique l) :=
  List.sorted_insertionSort strLeP l.dedup

theorem pySortedUnique_nodup (l : List String) : (pySortedUnique l).Nodup :=
  ((List.perm_insertionSort strLeP l.dedup).nodup_iff).mpr (List.nodup_dedup l)

theorem mem_pySortedUnique {s : String} {l : List String} :
    s ∈ pySortedUnique l ↔ s ∈ l := by
  rw [pySortedUnique, List.mem_insertionSort, List.mem_dedup]

/-! ### Lemmas about the filesystem model -/

theorem applyWrites_lookup (ws : List FileWrite) :
    ∀ (fs : FileSys) (p : String),
      applyWrites fs ws p =
        match writeLookup ws p with
        | some c => some c
        | none => fs p := by
  induction ws with
  | nil => intro fs p; rfl
  | cons w rest ih =>
    intro fs p
    simp only [applyWrites, writeLookup]
    rw [ih]
    cases writeLookup rest p with
    | some c => rfl
    | none =>
      by_cases hp : p = w.1
      · simp [applyWrite, hp]
      · simp [applyWrite, hp]

theorem applyWrites_self_idem (ws : List FileWrite) (fs : FileSys) (p : String) :
    applyWrites (applyWrites fs ws) ws p = applyWrites fs ws p := by
  rw [applyWrites_lookup, applyWrites_lookup]
  cases h : writeLookup ws p with
  | some c => rfl
  | none => rfl

/-! ### Inversion lemmas about the pipeline -/

theorem filterRows_ok_pred {f : Record → Except String Bool} :
    ∀ {rows : List Record} {fl : List Record}, filterRows f rows = .ok fl →
      ∀ r ∈ rows, exceptErr (f r) = false := by
  intro rows
  induction rows with
  | nil => intro fl _ r hr; simp at hr
  | cons x xs ih =>
    intro fl h r hr
    simp only [filterRows] at h
    cases hf : f x with
    | error e => rw [hf] at h; simp at h
    | ok b =>
      rw [hf] at h
      cases hrest : filterRows f xs with
      | error e => rw [hrest] at h; simp at h
      | ok l =>
        rcases List.mem_cons.mp hr with rfl | hr2
        · simp [exceptErr, hf]
        · exact ih hrest r hr2

theorem filterRows_ok_mem {f : Record → Except String Bool} :
    ∀ {rows : List Record} {fl : List Record}, filterRows f rows = .ok fl →
      ∀ r ∈ fl, r ∈ rows ∧ f r = .ok true := by
  intro rows
  induction rows with
  | nil =>
    intro fl h r hr
    simp only [filterRows, Except.ok.injEq] at h
    subst h
    simp at hr
  | cons x xs ih =>
    intro fl h r hr
    simp only [filterRows] at h
    cases hf : f x with
    | error e => rw [hf] at h; simp at h
    | ok b =>
      rw [hf] at h
      cases hrest : filterRows f xs with
      | error e => rw [hrest] at h; simp at h
      | ok l =>
        rw [hrest] at h
        simp only [Except.ok.injEq] at h
        subst h
        cases b with
        | true =>
          rcases List.mem_cons.mp hr with rfl | hr2
          · exact ⟨List.mem_cons_self _ _, hf⟩
          · obtain ⟨h1, h2⟩ := ih hrest r hr2
            exact ⟨List.mem_cons_of_mem _ h1, h2⟩
        | false =>
          obtain ⟨h1, h2⟩ := ih hrest r (by simpa using hr)
          exact ⟨List.mem_cons_of_mem _ h1, h2⟩

theorem extractTickers_ok_mem {cfg : Config} :
    ∀ {fl : List Record} {ticks : List String}, extractTickers cfg fl = .ok ticks →
      ∀ s ∈ ticks, ∃ r ∈ fl, ∃ v, getItem r cfg.ticker_col = .ok v ∧
        clean_ticker v ≠ "" ∧ s = clean_ticker v ++ cfg.suffix := by
  intro fl
  induction fl with
  | nil =>
    intro ticks h s hs
    simp only [extractTickers, Except.ok.injEq] at h
    subst h
    simp at hs
  | cons x xs ih =>
    intro ticks h s hs
    simp only [extractTickers] at h
    cases hg : getItem x cfg.ticker_col with
    | error e => rw [hg] at h; simp at h
    | ok v =>
      rw [hg] at h
      cases hrest : extractTickers cfg xs with
      | error e => rw [hrest] at h; simp at h
      | ok rest =>
        rw [hrest] at h
        simp only [Except.ok.injEq] at h
        subst h
        by_cases hv : clean_ticker v = ""
        · rw [if_pos hv] at hs
          obtain ⟨r, hr, hrest2⟩ := ih hrest s hs
          exact ⟨r, List.mem_cons_of_mem _ hr, hrest2⟩
        · rw [if_neg hv] at hs
          rcases List.mem_cons.mp hs with rfl | hs2
          · exact ⟨x, List.mem_cons_self _ _, v, hg, hv, rfl⟩
          · obtain ⟨r, hr, hrest2⟩ := ih hrest s hs2
            exact ⟨r, List.mem_cons_of_mem _ hr, hrest2⟩

theorem processCategory_eq_of {rows : List Record} {cfg : Config}
    {fl : List Record} {ticks : List String}
    (hf : filterRows cfg.filterFn rows = .ok fl)
    (he : extractTickers cfg fl = .ok ticks) :
    processCategory rows cfg =
      ([fullWrite cfg fl, txtWrite cfg (pySortedUnique ticks),
        jsonWrite cfg (pySortedUnique ticks)], .ok (pySortedUnique ticks)) := by
  simp only [processCategory, hf, he]

theorem processCategory_ok {rows : List Record} {cfg : Config} {l : List String}
    (h : (processCategory rows cfg).2 = .ok l) :
    ∃ fl ticks, filterRows cfg.filterFn rows = .ok fl ∧
      extractTickers cfg fl = .ok ticks ∧ l = pySortedUnique ticks ∧
      (processCategory rows cfg).1 = [fullWrite cfg fl, txtWrite cfg l, jsonWrite cfg l] := by
  cases hf : filterRows cfg.filterFn rows with
  | error e =>
    exfalso
    simp only [processCategory, hf] at h
    exact Except.noConfusion h
  | ok fl =>
    cases he : extractTickers cfg fl with
    | error e =>
      exfalso
      simp only [processCategory, hf, he] at h
      exact Except.noConfusion h
    | ok ticks =>
      have hpc := processCategory_eq_of hf he
      rw [hpc] at h
      simp only [Except.ok.injEq] at h
      subst h
      exact ⟨fl, ticks, rfl, he, rfl, by rw [hpc]⟩

theorem processDataAux_ok_each {rows : List Record} :
    ∀ {cfgs : List Config} {allT : List String},
      (processDataAux rows cfgs).2 = .ok allT →
      ∀ cfg ∈ cfgs, ∃ l, (processCategory rows cfg).2 = .ok l := by
  intro cfgs
  induction cfgs with
  | nil => intro allT _ cfg hc; simp at hc
  | cons c cs ih =>
    intro allT h cfg hc
    cases hc1 : (processCategory rows c).2 with
    | error e =>
      exfalso
      simp only [processDataAux, hc1] at h
      exact Except.noConfusion h
    | ok st =>
      cases haux : (processDataAux rows cs).2 with
      | error e =>
        exfalso
        simp only [processDataAux, hc1, haux] at h
        exact Except.noConfusion h
      | ok l2 =>
        rcases List.mem_cons.mp hc with rfl | hcs
        · exact ⟨st, hc1⟩
        · exact ih haux cfg hcs

theorem processDataAux_ok_writes {rows : List Record} :
    ∀ {cfgs : List Config} {allT : List String},
      (processDataAux rows cfgs).2 = .ok allT →
      ∀ cfg ∈ cfgs, ∀ w ∈ (processCategory rows cfg).1, w ∈ (processDataAux rows cfgs).1 := by
  intro cfgs
  induction cfgs with
  | nil => intro allT _ cfg hc; simp at hc
  | cons c cs ih =>
    intro allT h cfg hc w hw
    cases hc1 : (processCategory rows c).2 with
    | error e =>
      exfalso
      simp only [processDataAux, hc1] at h
      exact Except.noConfusion h
    | ok st =>
      cases haux : (processDataAux rows cs).2 with
      | error e =>
        exfalso
        simp only [processDataAux, hc1, haux] at h
        exact Except.noConfusion h
      | ok l2 =>
        have hfst : (processDataAux rows (c :: cs)).1 =
            (processCategory rows c).1 ++ (processDataAux rows cs).1 := by
          simp only [processDataAux, hc1, haux]
        rw [hfst]
        rcases List.mem_cons.mp hc with rfl | hcs
        · exact List.mem_append_left _ hw
        · exact List.mem_append_right _ (ih haux cfg hcs w hw)

theorem processData_ok_parts {rows : List Record} {allT : List String}
    (h : (processData rows).2 = .ok allT) :
    ∃ l1 l2 l3, (processCategory rows nseEquityCfg).2 = .ok l1 ∧
      (processCategory rows nseEtfCfg).2 = .ok l2 ∧
      (processCategory rows bseEquityCfg).2 = .ok l3 ∧
      allT = l1 ++ l3 := by
  unfold processData CONFIG at h
  cases h1 : (processCategory rows nseEquityCfg).2 with
  | error e =>
    exfalso
    simp only [processDataAux, h1] at h
    exact Except.noConfusion h
  | ok l1 =>
    cases h2 : (processCategory rows nseEtfCfg).2 with
    | error e =>
      exfalso
      simp only [processDataAux, h1, h2] at h
      exact Except.noConfusion h
    | ok l2 =>
      cases h3 : (processCategory rows bseEquityCfg).2 with
      | error e =>
        exfalso
        simp only [processDataAux, h1, h2, h3] at h
        exact Except.noConfusion h
      | ok l3 =>
        simp only [processDataAux, h1, h2, h3] at h
        simp [nseEquityCfg, nseEtfCfg, bseEquityCfg] at h
        exact ⟨l1, l2, l3, rfl, rfl, rfl, h.symm⟩

theorem runMain_exit0 {t : String} (h : (runMain t).2 = 0) :
    t ≠ "" ∧ ∃ allT, (processData (parseCSV t)).2 = .ok allT ∧
      (runMain t).1 = (processData (parseCSV t)).1 ++
        [("data/all/tickers.txt", tickersTxtContent (pySortedUnique allT)),
         ("data/all/tickers.json", jsonStrings (pySortedUnique allT))] := by
  unfold runMain at h ⊢
  by_cases ht : t = ""
  · rw [if_pos ht] at h; simp at h
  · rw [if_neg ht] at h ⊢
    cases hp : (processData (parseCSV t)).2 with
    | error e => rw [hp] at h; simp at h
    | ok allT => exact ⟨ht, allT, rfl, rfl⟩

theorem runMain_err {t : String} (ht : t ≠ "")
    (h : exceptErr (processData (parseCSV t)).2 = true) : (runMain t).2 = 1 := by
  unfold runMain
  rw [if_neg ht]
  cases hp : (processData (parseCSV t)).2 with
  | error e => rfl
  | ok allT => rw [hp] at h; simp [exceptErr] at h

/-! ### Lemmas about clean_ticker -/

theorem dropLastWhile_append_sat {p : Char → Bool} {c : Char} (hc : p c = true)
    (x : List Char) : dropLastWhile p (x ++ [c]) = dropLastWhile p x := by
  unfold dropLastWhile
  rw [List.reverse_append]
  simp [hc]

theorem pyStrip_append_space (s : String) : pyStrip (s ++ " ") = pyStrip s := by
  unfold pyStrip
  rw [String.data_append, List.dropWhile_append]
  by_cases hemp : (s.data.dropWhile isPySpace).isEmpty
  · rw [if_pos hemp]
    rw [List.isEmpty_iff.mp hemp]
    rfl
  · rw [if_neg hemp]
    exact congrArg String.mk (dropLastWhile_append_sat (by rfl) _)

theorem pyStrip_space_append (s : String) : pyStrip (" " ++ s) = pyStrip s := by
  unfold pyStrip
  rw [String.data_append]
  rfl

theorem clean_ticker_no_quotes (s : String) :
    ((clean_ticker (some s)).data.all (fun c => !(c == dquote || c == squote))) = true := by
  rw [List.all_eq_true]
  intro c hc
  simp only [clean_ticker, removeChar, pyStr] at hc
  simp only [List.mem_filter, decide_eq_true_eq] at hc
  obtain ⟨⟨_, hdq⟩, hsq⟩ := hc
  simp [hdq, hsq]

/-! ### Claim theorems -/

/-- C5: an empty fetched CSV text makes the run exit with status 1 having
performed no file writes at all: the guard in main runs before any
category or consolidated file is written. -/
theorem empty_text_exits_nonzero_without_writes : runMain "" = ([], 1) := rfl

/-- C7: the pipeline is a pure function of the input text, and every
write fully overwrites its target; hence running it twice on the same
text leaves every file with byte-identical content to a single run. -/
theorem running_twice_is_byte_identical (t : String) (fs : FileSys) (p : String) :
    applyWrites (applyWrites fs (runMain t).1) (runMain t).1 p
      = applyWrites fs (runMain t).1 p :=
  applyWrites_self_idem (runMain t).1 fs p

/-- C8: clean_ticker trims leading/trailing whitespace (prepending or
appending a blank never changes the result) and removes every single and
double quote character (no quote survives in the output); in particular
clean applied to two-space-quote-RELI-quote-two-spaces gives RELI. -/
theorem clean_trims_whitespace_and_strips_quotes :
    clean_ticker (some "  \"RELI\"  ") = "RELI" ∧
    (∀ s : String,
      ((clean_ticker (some s)).data.all (fun c => !(c == dquote || c == squote))) = true) ∧
    (∀ s : String, clean_ticker (some (" " ++ s)) = clean_ticker (some s) ∧
      clean_ticker (some (s ++ " ")) = clean_ticker (some s)) := by
  refine ⟨by decide, clean_ticker_no_quotes, fun s => ⟨?_, ?_⟩⟩
  · simp only [clean_ticker, pyStr, pyStrip_space_append]
  · simp only [clean_ticker, pyStr, pyStrip_append_space]

/-- C9: clean_ticker is not idempotent: on the input double-quote A blank
double-quote, cleaning once leaves the quoted trailing blank in place, so
cleaning twice differs from cleaning once. -/
theorem clean_ticker_not_idempotent :
    clean_ticker (some (clean_ticker (some "\"A \""))) ≠ clean_ticker (some "\"A \"") ∧
    clean_ticker (some "\"A \"") = "A " := by
  constructor
  · decide
  · decide

/-- C2: every emitted ticker list is sorted ascending in the string
ordering and duplicate-free: per category the list serialized into both
tickers.txt and tickers.json, and on a successful run the consolidated
list written to data/all in both forms. -/
theorem emitted_ticker_lists_sorted_nodup :
    (∀ (t : String) (cfg : Config) (l : List String), cfg ∈ CONFIG →
      (processCategory (parseCSV t) cfg).2 = .ok l →
      List.Sorted strLeP l ∧ l.Nodup ∧
        txtWrite cfg l ∈ (processCategory (parseCSV t) cfg).1 ∧
        jsonWrite cfg l ∈ (processCategory (parseCSV t) cfg).1) ∧
    (∀ t : String, (runMain t).2 = 0 →
      ∃ l, List.Sorted strLeP l ∧ l.Nodup ∧
        ("data/all/tickers.txt", tickersTxtContent l) ∈ (runMain t).1 ∧
        ("data/all/tickers.json", jsonStrings l) ∈ (runMain t).1) := by
  constructor
  · intro t cfg l _ h
    obtain ⟨fl, ticks, _, _, hl, hw⟩ := processCategory_ok h
    subst hl
    refine ⟨pySortedUnique_sorted _, pySortedUnique_nodup _, ?_, ?_⟩
    · rw [hw]; simp
    · rw [hw]; simp
  · intro t h
    obtain ⟨_, allT, _, hws⟩ := runMain_exit0 h
    refine ⟨pySortedUnique allT, pySortedUnique_sorted _, pySortedUnique_nodup _, ?_, ?_⟩
    · rw [hws]; simp
    · rw [hws]; simp

/-- C3: the consolidated list is the deduplicated sorted union of exactly
the include_in_all rules (nse_equity and bse_equity): membership in it is
membership in one of those two category lists, and a symbol only in the
nse_etf list never reaches it. -/
theorem consolidated_equals_union_of_flagged_rules :
    ∀ (t : String) (allT l1 l2 l3 : List String),
      (processData (parseCSV t)).2 = .ok allT →
      (processCategory (parseCSV t) nseEquityCfg).2 = .ok l1 →
      (processCategory (parseCSV t) nseEtfCfg).2 = .ok l2 →
      (processCategory (parseCSV t) bseEquityCfg).2 = .ok l3 →
      pySortedUnique allT = pySortedUnique (l1 ++ l3) ∧
      (∀ s, s ∈ pySortedUnique allT ↔ s ∈ l1 ∨ s ∈ l3) ∧
      (∀ s, s ∈ l2 → s ∉ l1 → s ∉ l3 → s ∉ pySortedUnique allT) := by
  intro t allT l1 l2 l3 hall h1 h2 h3
  obtain ⟨m1, m2, m3, g1, g2, g3, heq⟩ := processData_ok_parts hall
  have e1 : l1 = m1 := Except.ok.inj (h1.symm.trans g1)
  have e3 : l3 = m3 := Except.ok.inj (h3.symm.trans g3)
  subst e1
  subst e3
  subst heq
  refine ⟨rfl, fun s => ?_, fun s hs2 hs1 hs3 hmem => ?_⟩
  · rw [mem_pySortedUnique, List.mem_append]
  · rw [mem_pySortedUnique, List.mem_append] at hmem
    rcases hmem with h | h
    · exact hs1 h
    · exact hs3 h

/-- C4: every entry of a category list is clean_ticker of the row's
ticker-column value with the category suffix appended, for some parsed
record that satisfied the category's predicate and whose cleaned value is
non-empty; no entry derives from a non-matching record. -/
theorem category_entries_come_from_matching_records :
    ∀ (t : String) (cfg : Config) (l : List String), cfg ∈ CONFIG →
      (processCategory (parseCSV t) cfg).2 = .ok l →
      ∀ s ∈ l, ∃ r ∈ parseCSV t, cfg.filterFn r = .ok true ∧
        ∃ v, getItem r cfg.ticker_col = .ok v ∧ clean_ticker v ≠ "" ∧
          s = clean_ticker v ++ cfg.suffix := by
  intro t cfg l _ h s hs
  obtain ⟨fl, ticks, hf, he, hl, _⟩ := processCategory_ok h
  subst hl
  obtain ⟨r, hr, v, hv, hne, hs3⟩ := extractTickers_ok_mem he s (mem_pySortedUnique.mp hs)
  obtain ⟨hrin, hrt⟩ := filterRows_ok_mem hf r hr
  exact ⟨r, hrin, hrt, v, hv, hne, hs3⟩

/-- C1 (amended): a lookup error raised while evaluating a rule's
predicate is fatal to the whole run (exit code 1, never a silent skip);
in particular a record with no Exch column always raises, Exch being
every predicate's first direct read.  (The nse_etf rule reads Name with a
defaulting get, so an absent Name alone raises nothing; see the
counterexample.) -/
theorem predicate_lookup_errors_are_fatal :
    ∀ cfg ∈ CONFIG,
      (∀ r : Record, dictFind r "Exch" = none → exceptErr (cfg.filterFn r) = true) ∧
      (∀ (t : String) (r : Record), r ∈ parseCSV t →
        exceptErr (cfg.filterFn r) = true → (runMain t).2 = 1) := by
  intro cfg hc
  constructor
  · intro r hr
    simp only [CONFIG, List.mem_cons, List.not_mem_nil, or_false] at hc
    rcases hc with rfl | rfl | rfl <;>
      simp [nseEquityCfg, nseEtfCfg, bseEquityCfg, nseEquityFilter, nseEtfFilter,
        bseEquityFilter, getItem, hr, exceptErr]
  · intro t r hrin herr
    by_cases ht : t = ""
    · subst ht; rfl
    · apply runMain_err ht
      cases hres : (processData (parseCSV t)).2 with
      | error e => rfl
      | ok allT =>
        exfalso
        obtain ⟨l, hl⟩ := processDataAux_ok_each hres cfg hc
        obtain ⟨fl, ticks, hf, _, _, _⟩ := processCategory_ok hl
        have hok := filterRows_ok_pred hf r hrin
        rw [hok] at herr
        exact Bool.noConfusion herr

/-- C1 counterexample: a record lacking the Name column evaluates the
nse_etf predicate without any lookup error (row.get defaults Name to the
empty string) and the whole run completes with exit code 0, so a column
the predicate reads being absent is not always fatal. -/
theorem nse_etf_missing_name_is_not_fatal :
    dictFind [("Exch", some "N"), ("ExchType", some "C"),
      ("AllowedToTrade", some "Y"), ("Series", some "XX"),
      ("Scripcode", some "77")] "Name" = none ∧
    exceptErr (nseEtfCfg.filterFn [("Exch", some "N"), ("ExchType", some "C"),
      ("AllowedToTrade", some "Y"), ("Series", some "XX"),
      ("Scripcode", some "77")]) = false ∧
    [("Exch", some "N"), ("ExchType", some "C"), ("AllowedToTrade", some "Y"),
      ("Series", some "XX"), ("Scripcode", some "77")] ∈
      parseCSV "Exch,ExchType,AllowedToTrade,Series,Scripcode\nN,C,Y,XX,77" ∧
    (runMain "Exch,ExchType,AllowedToTrade,Series,Scripcode\nN,C,Y,XX,77").2 = 0 := by
  decide

/-- Witness for C1: a concrete run in which the nse_equity predicate
raises (AllowedToTrade is absent) and the process exits 1, and a record
with no Exch column on which the predicate errors. -/
theorem predicate_lookup_errors_are_fatal_witness :
    exceptErr (nseEquityCfg.filterFn []) = true ∧
    (runMain "Exch,ExchType\nN,C").2 = 1 :=
  ⟨(predicate_lookup_errors_are_fatal nseEquityCfg (List.mem_cons_self _ _)).1 [] rfl,
   (predicate_lookup_errors_are_fatal nseEquityCfg (List.mem_cons_self _ _)).2
     "Exch,ExchType\nN,C" [("Exch", some "N"), ("ExchType", some "C")]
     (by decide) (by decide)⟩

/-- C6 counterexample: the parser raises no error on empty or headerless
input: empty text parses to no records, and on the headerless text of a
single newline the whole run even succeeds with exit code 0. -/
theorem parser_does_not_fail_on_empty_or_headerless :
    parseCSV "" = [] ∧ parseCSV "\n" = [] ∧ (runMain "\n").2 = 0 := by
  decide

/-- C6 (amended): the parser is total: empty input yields zero records
(the empty-text guard in main, not a parse failure, rejects it with exit
code 1 before parsing); otherwise the first line defines the column names
and every subsequent non-blank line becomes exactly one Record, in
preserved row order. -/
theorem parse_is_total_and_order_preserving :
    parseCSV "" = [] ∧ (runMain "").2 = 1 ∧
    (∀ (hdr : List String) (ls : List String),
      buildRows hdr ls =
        (ls.filter (fun l => decide (l ≠ ""))).map
          (fun l => mkRecord hdr (parseFields l))) := by
  refine ⟨rfl, rfl, fun hdr ls => ?_⟩
  induction ls with
  | nil => rfl
  | cons x xs ih =>
    by_cases hx : x = ""
    · subst hx
      simp [buildRows, List.filter_cons, ih]
    · simp [buildRows, List.filter_cons, hx, ih]

/-- C10 counterexample: a row matching nse_equity whose Name is a single
blank (cleaning to empty) yields the empty ticker files, but
full_tickers.json holds the matched record and is not the empty JSON
array. -/
theorem full_json_not_empty_when_all_tickers_clean_empty :
    (processCategory (parseCSV "Exch,ExchType,AllowedToTrade,Series,Name\nN,C,Y,EQ, ")
      nseEquityCfg).2 = .ok [] ∧
    filterRows nseEquityCfg.filterFn
      (parseCSV "Exch,ExchType,AllowedToTrade,Series,Name\nN,C,Y,EQ, ") ≠ .ok [] ∧
    ((processCategory (parseCSV "Exch,ExchType,AllowedToTrade,Series,Name\nN,C,Y,EQ, ")
      nseEquityCfg).1.map Prod.fst =
      ["data/nse/equity/full_tickers.json", "data/nse/equity/tickers.txt",
       "data/nse/equity/tickers.json"]) ∧
    ("data/nse/equity/full_tickers.json", "[]") ∉
      (processCategory (parseCSV "Exch,ExchType,AllowedToTrade,Series,Name\nN,C,Y,EQ, ")
        nseEquityCfg).1 ∧
    ("data/nse/equity/tickers.txt", "\n") ∈
      (processCategory (parseCSV "Exch,ExchType,AllowedToTrade,Series,Name\nN,C,Y,EQ, ")
        nseEquityCfg).1 := by
  decide

/-- C10 (amended): whenever a category extracts no tickers its three
output files are still written, never omitted: tickers.txt is exactly one
newline, tickers.json the empty JSON array, and full_tickers.json the
empty JSON array exactly in the no-match case (with matched records it
serializes them instead). -/
theorem no_ticker_category_files_still_written :
    ∀ (rows : List Record) (cfg : Config) (fl : List Record), cfg ∈ CONFIG →
      filterRows cfg.filterFn rows = .ok fl →
      extractTickers cfg fl = .ok [] →
      processCategory rows cfg =
        ([fullWrite cfg fl, txtWrite cfg [], jsonWrite cfg []], .ok []) ∧
      txtWrite cfg [] = ("data/" ++ cfg.dir ++ "/tickers.txt", "\n") ∧
      jsonWrite cfg [] = ("data/" ++ cfg.dir ++ "/tickers.json", "[]") ∧
      (fl = [] → fullWrite cfg fl = ("data/" ++ cfg.dir ++ "/full_tickers.json", "[]")) := by
  intro rows cfg fl _ hf he
  have hpc := processCategory_eq_of hf he
  refine ⟨hpc, rfl, rfl, fun hfl => ?_⟩
  subst hfl
  rfl

/-- Witness for C2: on a one-row CSV matching nse_equity, the category
list is the sorted duplicate-free singleton and both ticker files carry
it, and the successful run writes the consolidated pair as well. -/
theorem emitted_ticker_lists_sorted_nodup_witness :
    (List.Sorted strLeP ["RELI.NS"] ∧ (["RELI.NS"] : List String).Nodup ∧
      txtWrite nseEquityCfg ["RELI.NS"] ∈
        (processCategory (parseCSV "Exch,ExchType,AllowedToTrade,Series,Name\nN,C,Y,EQ,RELI")
          nseEquityCfg).1 ∧
      jsonWrite nseEquityCfg ["RELI.NS"] ∈
        (processCategory (parseCSV "Exch,ExchType,AllowedToTrade,Series,Name\nN,C,Y,EQ,RELI")
          nseEquityCfg).1) ∧
    (∃ l, List.Sorted strLeP l ∧ l.Nodup ∧
      ("data/all/tickers.txt", tickersTxtContent l) ∈
        (runMain "Exch,ExchType,AllowedToTrade,Series,Name\nN,C,Y,EQ,RELI").1 ∧
      ("data/all/tickers.json", jsonStrings l) ∈
        (runMain "Exch,ExchType,AllowedToTrade,Series,Name\nN,C,Y,EQ,RELI").1) :=
  ⟨emitted_ticker_lists_sorted_nodup.1
      "Exch,ExchType,AllowedToTrade,Series,Name\nN,C,Y,EQ,RELI" nseEquityCfg ["RELI.NS"]
      (List.mem_cons_self _ _) (by decide),
   emitted_ticker_lists_sorted_nodup.2
      "Exch,ExchType,AllowedToTrade,Series,Name\nN,C,Y,EQ,RELI" (by decide)⟩

/-- Witness for C3: on a three-row CSV hitting all three rules, the
ETF-only symbol is absent from the consolidated list. -/
theorem consolidated_equals_union_of_flagged_rules_witness :
    "GOLDETF.NS" ∉ pySortedUnique ["RELI.NS", "500001.BO"] :=
  (consolidated_equals_union_of_flagged_rules
      "Exch,ExchType,AllowedToTrade,Series,Name,Scripcode\nN,C,Y,EQ,RELI,1\nN,C,Y,XX,GOLDETF,2\nB,C,Y,EQ,FOO,500001"
      ["RELI.NS", "500001.BO"] ["RELI.NS"] ["GOLDETF.NS"] ["500001.BO"]
      (by decide) (by decide) (by decide) (by decide)).2.2
    "GOLDETF.NS" (by decide) (by decide) (by decide)

/-- Witness for C4: the single entry RELI.NS of the nse_equity list on a
one-row CSV comes from a record satisfying the predicate. -/
theorem category_entries_come_from_matching_records_witness :
    ∃ r ∈ parseCSV "Exch,ExchType,AllowedToTrade,Series,Name\nN,C,Y,EQ,RELI",
      nseEquityCfg.filterFn r = .ok true ∧
      ∃ v, getItem r nseEquityCfg.ticker_col = .ok v ∧ clean_ticker v ≠ "" ∧
        "RELI.NS" = clean_ticker v ++ nseEquityCfg.suffix :=
  category_entries_come_from_matching_records
    "Exch,ExchType,AllowedToTrade,Series,Name\nN,C,Y,EQ,RELI" nseEquityCfg ["RELI.NS"]
    (List.mem_cons_self _ _) (by decide) "RELI.NS" (by decide)

/-- Witness for C10: on a CSV whose only row fails the nse_equity
predicate, the category still writes its three files with the empty
contents. -/
theorem no_ticker_category_files_still_written_witness :
    processCategory (parseCSV "Exch,ExchType,AllowedToTrade,Series,Name\nB,C,Y,EQ,X")
        nseEquityCfg =
      ([fullWrite nseEquityCfg [], txtWrite nseEquityCfg [], jsonWrite nseEquityCfg []],
       .ok []) ∧
    txtWrite nseEquityCfg [] = ("data/" ++ nseEquityCfg.dir ++ "/tickers.txt", "\n") ∧
    jsonWrite nseEquityCfg [] = ("data/" ++ nseEquityCfg.dir ++ "/tickers.json", "[]") ∧
    (([] : List Record) = [] →
      fullWrite nseEquityCfg [] = ("data/" ++ nseEquityCfg.dir ++ "/full_tickers.json", "[]")) :=
  no_ticker_category_files_still_written
    (parseCSV "Exch,ExchType,AllowedToTrade,Series,Name\nB,C,Y,EQ,X") nseEquityCfg []
    (List.mem_cons_self _ _) (by decide) (by decide)

end IndianTickers
